import Mathlib

/-!
# grpc-proxy: the call handler of `handler.go`

A shallow embedding of `handler.handler`, `forwardClientToServer` and
`forwardServerToClient` (file `handler.go`), and the properties of the
telemetry emission, the completion arbitration and the two forwarding loops.

The external collaborators (the director, the reflection client, the gRPC
streams, the clock and the goroutine scheduler) are inputs of the embedding:
the handler is a function from what they answer to what the handler does
(its exit, the final Call Record and the trace of the calls it made).
-/

namespace GrpcProxy

/-! ## Go library values used by the handler -/

/-- A gRPC status code, `codes.Code` (a `uint32`). -/
abbrev Code := Nat

namespace codes

def OK : Code := 0
def Unknown : Code := 2
def NotFound : Code := 5
def PermissionDenied : Code := 7
def Internal : Code := 13
def Unavailable : Code := 14

/-- The text of a code, `codes.Code.String`. -/
def toText (c : Code) : String :=
  match c with
  | 0 => "OK"
  | 1 => "Canceled"
  | 2 => "Unknown"
  | 3 => "InvalidArgument"
  | 4 => "DeadlineExceeded"
  | 5 => "NotFound"
  | 6 => "AlreadyExists"
  | 7 => "PermissionDenied"
  | 8 => "ResourceExhausted"
  | 9 => "FailedPrecondition"
  | 10 => "Aborted"
  | 11 => "OutOfRange"
  | 12 => "Unimplemented"
  | 13 => "Internal"
  | 14 => "Unavailable"
  | 15 => "DataLoss"
  | 16 => "Unauthenticated"
  | n => "Code(" ++ toString n ++ ")"

end codes

/-- A non-nil Go `error` value, as far as the handler tells errors apart:
the sentinel `io.EOF`, a gRPC status error, or any other error (known by its
text only). -/
inductive GoError where
  | EOF
  | status (code : Code) (message : String)
  | other (text : String)
  deriving DecidableEq, Repr

namespace GoError

/-- The method `Error()` of an error value. -/
def Error : GoError → String
  | EOF => "EOF"
  | status c m => "rpc error: code = " ++ codes.toText c ++ " desc = " ++ m
  | other t => t

end GoError

namespace status

/-- The call `status.Error(c, msg)` for a code other than `OK`. -/
def Error (c : Code) (msg : String) : GoError := GoError.status c msg

/-- The call `status.FromError(err)` for a non-nil error: the status (code and
message) and whether `err` was a status error. -/
def FromError : GoError → (Code × String) × Bool
  | GoError.status c m => ((c, m), true)
  | e => ((codes.Unknown, e.Error), false)

/-- The call `status.Code(err)` for a non-nil error: the classification of an
error. -/
def Code (e : GoError) : GrpcProxy.Code := (FromError e).1.1

end status

namespace grpc

/-- The call `grpc.Errorf(c, format, a...)` for a code other than `OK`; `msg`
is the formatted text. -/
def Errorf (c : Code) (msg : String) : GoError := status.Error c msg

end grpc

/-- An instant of `time.Time`, in nanoseconds on the process clock. -/
abbrev Time := Int

namespace time

def minDuration : Int := -(2 ^ 63)
def maxDuration : Int := 2 ^ 63 - 1

/-- The method `t.Sub(u)`: the duration `t - u`, an `int64` of nanoseconds,
saturated at the least and the greatest duration. -/
def Sub (t u : Time) : Int :=
  if t - u < minDuration then minDuration
  else if maxDuration < t - u then maxDuration
  else t - u

/-- The method `d.Milliseconds()`: integer division that truncates toward
zero. -/
def Milliseconds (d : Int) : Int := Int.tdiv d 1000000

end time

namespace strings

/-- The pieces of `s` between the occurrences of `sep`; `cur` is the piece
being read, reversed. -/
def splitAux (sep : Char) : List Char → List Char → List (List Char)
  | [], cur => [cur.reverse]
  | c :: cs, cur =>
    if c = sep then cur.reverse :: splitAux sep cs [] else splitAux sep cs (c :: cur)

/-- The call `strings.Split(s, sep)` for a separator of one character (the
handler splits on `"/"`). -/
def Split (s : String) (sep : Char) : List String :=
  (splitAux sep s.data []).map String.mk

end strings

/-- Request metadata, `metadata.MD` (a `map[string][]string`), as an
association list. -/
abbrev MD := List (String × List String)

namespace metadata

/-- The method `md.Get(k)` for a key that is already lower case: the values
under `k`, none when the key is absent. -/
def Get (md : MD) (k : String) : List String :=
  match md.lookup k with
  | some vs => vs
  | none => []

end metadata

/-- A `context.Context`, as far as the handler reads it: the incoming
metadata that `metadata.FromIncomingContext` finds, if any. -/
structure Context where
  incomingMD : Option MD
  deriving DecidableEq, Repr

namespace metadata

/-- The call `metadata.FromIncomingContext(ctx)`. -/
def FromIncomingContext (ctx : Context) : Option MD := ctx.incomingMD

end metadata

/-- A backend connection, `*grpc.ClientConn`, known to the handler by its
target. -/
structure ClientConn where
  Target : String
  deriving DecidableEq, Repr

/-- A `desc.MethodDescriptor`, as far as the handler reads it. -/
structure MethodDescriptor where
  IsClientStreaming : Bool
  IsServerStreaming : Bool
  deriving DecidableEq, Repr

/-- The Call Record, `mq.Monitor`, with the fields the handler writes. -/
structure Monitor where
  Service : String
  Method : String
  ServiceIP : String
  RequestID : String
  Created : Time
  EndTime : Time := 0
  Duration : Int := 0
  IsStream : Bool := false
  ErrMsg : String := ""
  deriving DecidableEq, Repr

/-! ## The handler -/

/-- A call the handler makes on a collaborator, in program order. `send r` is
the statement `go s.mq.Send(body)`, with the fields `body` has when the
statement runs (the goroutine is handed the pointer `body`); the sink `s.mq`
is an external collaborator and what its `Send` does is not part of the
embedding. -/
inductive Event where
  | director (fullMethodName : String)
  | resolveService (name : String)
  | findMethodByName (name : String)
  | send (record : Monitor)
  | newClientStream (fullMethodName : String)
  | closeSend
  | clientCancel
  | setTrailer
  deriving DecidableEq, Repr

namespace Event

def isSend : Event → Bool
  | send _ => true
  | _ => false

def isResolve : Event → Bool
  | resolveService _ => true
  | findMethodByName _ => true
  | _ => false

def isNewClientStream : Event → Bool
  | newClientStream _ => true
  | _ => false

end Event

/-- A completion signal received by the `select` of the handler: the channel
it came from and the error it carries. -/
inductive Signal where
  | s2c (err : GoError)
  | c2s (err : GoError)
  deriving DecidableEq, Repr

namespace Signal

def isS2C : Signal → Bool
  | s2c _ => true
  | c2s _ => false

def isC2S : Signal → Bool
  | s2c _ => false
  | c2s _ => true

end Signal

/-- The `return` statement (by its line in `handler.go`) through which the
handler leaves. -/
inductive Site where
  | noMethod          -- line 91
  | directorErr       -- line 96
  | noMetadata        -- line 100
  | noRequestID       -- line 104
  | resolveErr        -- line 119
  | methodNotFound    -- line 123
  | openErr           -- line 139
  | s2cErr            -- line 165
  | c2sDone           -- lines 177 and 179
  | neverReach        -- line 183
  deriving DecidableEq, Repr

/-- How a run of the handler ends: it returns an error (or `nil`), it panics
on an index out of range, or it waits on the `select` for ever. -/
inductive Exit where
  | returned (site : Site) (err : Option GoError)
  | indexOutOfRange (index length : Nat)
  | blocked
  deriving DecidableEq, Repr

/-- What the collaborators answer during one call. -/
structure Env where
  /-- The three readings of `time.Now()`: at the start, at the streaming
  classification, and in the deferred function. -/
  tStart : Time
  tClassify : Time
  tEnd : Time
  /-- The answer of `grpc.MethodFromServerStream(serverStream)`. -/
  methodFromServerStream : Option String
  /-- The `StreamDirector`, applied to the context of the server stream. -/
  director : String → Except GoError (Context × ClientConn)
  /-- The call `client.ResolveService(name)`; a service descriptor is given by
  its `FindMethodByName`. -/
  resolveService : String → Except GoError (String → Option MethodDescriptor)
  /-- The error of `grpc.NewClientStream`, if it fails. -/
  newClientStream : String → Option GoError
  /-- The completion signals in the order in which the `select` receives
  them; when none is left the `select` waits for ever. -/
  signals : List Signal

/-- The variables of a run that outlive the body of the handler: the exit, the
locals `body` and `methodDes` that the deferred function reads, and the trace
of the calls made. -/
structure Run where
  exit : Exit
  body : Option Monitor
  methodDes : Option MethodDescriptor
  trace : List Event
  deriving DecidableEq, Repr

/-- The condition `methodDes.IsClientStreaming() || methodDes.IsServerStreaming()`. -/
def MethodDescriptor.streaming (d : MethodDescriptor) : Bool :=
  d.IsClientStreaming || d.IsServerStreaming

/-- The statement `if err, ok := status.FromError(e); ok && err.Code() == codes.Internal
{ body.ErrMsg = err.Message() }`. -/
def recordInternal (body : Monitor) (e : GoError) : Monitor :=
  if (status.FromError e).2 && (status.FromError e).1.1 == codes.Internal then
    { body with ErrMsg := (status.FromError e).1.2 }
  else body

/-- The loop `for i := 0; i < 2; i++ { select { ... } }` of the handler and the
two statements after it (lines 147 to 183); the first argument is the number
of iterations left. -/
def selectLoop (methodDes : MethodDescriptor) :
    Nat → List Signal → Monitor → List Event → Run
  | 0, _, body, trace =>
    { exit := Exit.returned Site.neverReach
        (some (grpc.Errorf codes.Internal "gRPC proxying should never reach this stage."))
      body := some { body with ErrMsg := "gRPC proxying should never reach this stage" }
      methodDes := some methodDes
      trace := trace }
  | _ + 1, [], body, trace =>
    { exit := Exit.blocked, body := some body, methodDes := some methodDes, trace := trace }
  | n + 1, Signal.s2c s2cErr :: rest, body, trace =>
    if s2cErr = GoError.EOF then
      selectLoop methodDes n rest body (trace ++ [Event.closeSend])
    else
      { exit := Exit.returned Site.s2cErr
          (some (grpc.Errorf codes.Internal ("failed proxying s2c: " ++ s2cErr.Error)))
        body := some (recordInternal body s2cErr)
        methodDes := some methodDes
        trace := trace ++ [Event.clientCancel] }
  | _ + 1, Signal.c2s c2sErr :: _, body, trace =>
    if c2sErr ≠ GoError.EOF then
      { exit := Exit.returned Site.c2sDone (some c2sErr)
        body := some (recordInternal body c2sErr)
        methodDes := some methodDes
        trace := trace ++ [Event.setTrailer] }
    else
      { exit := Exit.returned Site.c2sDone none
        body := some body
        methodDes := some methodDes
        trace := trace ++ [Event.setTrailer] }

/-- The locals of the handler once the method descriptor is resolved (line
126). -/
structure Resolved where
  fullMethodName : String
  body : Monitor
  methodDes : MethodDescriptor
  trace : List Event
  deriving DecidableEq, Repr

/-- The first part of the body of `handler.handler` (lines 89 to 125): the
method name, the director, the request id, the Call Record and the method
descriptor. An early end of the run is the error of the result. -/
def resolveMethod (env : Env) : Except Run Resolved :=
  let start := env.tStart
  match env.methodFromServerStream with
  | none =>
    Except.error
      { exit := Exit.returned Site.noMethod
          (some (grpc.Errorf codes.Internal "lowLevelServerStream not exists in context"))
        body := none, methodDes := none, trace := [] }
  | some fullMethodName =>
    match env.director fullMethodName with
    | Except.error err =>
      Except.error
        { exit := Exit.returned Site.directorErr (some err)
          body := none, methodDes := none, trace := [Event.director fullMethodName] }
    | Except.ok (outgoingCtx, backendConn) =>
      match metadata.FromIncomingContext outgoingCtx with
      | none =>
        Except.error
          { exit := Exit.returned Site.noMetadata
              (some (status.Error codes.PermissionDenied "Parse request context failed"))
            body := none, methodDes := none, trace := [Event.director fullMethodName] }
      | some md =>
        match metadata.Get md "requestid" with
        | [] =>
          Except.error
            { exit := Exit.returned Site.noRequestID
                (some (status.Error codes.PermissionDenied "Must params not passed"))
              body := none, methodDes := none, trace := [Event.director fullMethodName] }
        | requestID0 :: _ =>
          if requestID0 = "" then
            Except.error
              { exit := Exit.returned Site.noRequestID
                  (some (status.Error codes.PermissionDenied "Must params not passed"))
                body := none, methodDes := none, trace := [Event.director fullMethodName] }
          else
            match strings.Split fullMethodName '/' with
            | [] =>
              Except.error
                { exit := Exit.indexOutOfRange 1 0
                  body := none, methodDes := none, trace := [Event.director fullMethodName] }
            | [_] =>
              Except.error
                { exit := Exit.indexOutOfRange 1 1
                  body := none, methodDes := none, trace := [Event.director fullMethodName] }
            | [_, _] =>
              Except.error
                { exit := Exit.indexOutOfRange 2 2
                  body := none, methodDes := none, trace := [Event.director fullMethodName] }
            | _ :: method1 :: method2 :: _ =>
              let body : Monitor :=
                { Service := method1, Method := method2, ServiceIP := backendConn.Target
                  RequestID := requestID0, Created := start }
              let trace := [Event.director fullMethodName, Event.resolveService method1]
              match env.resolveService method1 with
              | Except.error err =>
                Except.error
                  { exit := Exit.returned Site.resolveErr (some err)
                    body := some body, methodDes := none, trace := trace }
              | Except.ok serviceDes =>
                let trace := trace ++ [Event.findMethodByName method2]
                match serviceDes method2 with
                | none =>
                  Except.error
                    { exit := Exit.returned Site.methodNotFound
                        (some (grpc.Errorf codes.NotFound "method not found"))
                      body := some body, methodDes := none, trace := trace }
                | some methodDes =>
                  Except.ok
                    { fullMethodName := fullMethodName, body := body
                      methodDes := methodDes, trace := trace }

/-- The record of the early emission (line 130): `body` marked as a stream,
with the time since the start. -/
def streamRecord (env : Env) (body : Monitor) : Monitor :=
  { body with
    IsStream := true, EndTime := env.tClassify
    Duration := time.Milliseconds (time.Sub env.tClassify env.tStart) }

/-- The streaming classification (lines 127 to 132): the record and the trace
after it. -/
def classify (env : Env) (res : Resolved) : Monitor × List Event :=
  if res.methodDes.streaming then
    (streamRecord env res.body, res.trace ++ [Event.send (streamRecord env res.body)])
  else (res.body, res.trace)

/-- The body of `handler.handler` (lines 89 to 183), without the deferred
function. -/
def handlerBody (env : Env) : Run :=
  match resolveMethod env with
  | Except.error r => r
  | Except.ok res =>
    let body := (classify env res).1
    let trace := (classify env res).2 ++ [Event.newClientStream res.fullMethodName]
    match env.newClientStream res.fullMethodName with
    | some err =>
      { exit := Exit.returned Site.openErr (some err)
        body := some { body with ErrMsg := err.Error }
        methodDes := some res.methodDes, trace := trace }
    | none => selectLoop res.methodDes 2 env.signals body trace

/-- The record as the deferred function leaves it (line 80). -/
def closeRecord (env : Env) (body : Monitor) : Monitor :=
  { body with
    IsStream := false, EndTime := env.tEnd
    Duration := time.Milliseconds (time.Sub env.tEnd env.tStart) }

/-- The deferred function of `handler.handler` (lines 77 to 86), run when the
body returns or panics. -/
def deferred (env : Env) (r : Run) : Run :=
  match r.exit with
  | Exit.blocked => r
  | _ =>
    match r.body with
    | none => r
    | some body =>
      match r.methodDes with
      | some methodDes =>
        if methodDes.streaming then { r with body := some (closeRecord env body) }
        else
          { r with
            body := some (closeRecord env body)
            trace := r.trace ++ [Event.send (closeRecord env body)] }
      | none =>
        { r with
          body := some (closeRecord env body)
          trace := r.trace ++ [Event.send (closeRecord env body)] }

/-- The method `handler.handler`: the body, then the deferred function. -/
def handler (env : Env) : Run := deferred env (handlerBody env)

/-- The records handed to `mq.Send` during a run, in order. -/
def emissions (r : Run) : List Monitor :=
  r.trace.filterMap fun
    | Event.send m => some m
    | _ => none

/-! ## The two forwarding loops -/

/-- Modelled from the spec: the type `frame` of the pass-through codec, which
is declared outside `handler.go`; the spec describes it as a single growable
byte buffer that stores the wire bytes verbatim. -/
structure frame where
  payload : List Nat := []
  deriving DecidableEq, Repr

/-- The backend-facing stream, `grpc.ClientStream`, as the forwarding loops use
it. `RecvMsg n` is the answer to the call number `n` (from 0) of `RecvMsg(f)`:
the wire bytes decoded into `f`, or an error; `SendMsg n f` is the error, if
any, of the call number `n` of `SendMsg(f)`. -/
structure ClientStream where
  RecvMsg : Nat → Except GoError (List Nat)
  Header : Except GoError MD
  SendMsg : Nat → frame → Option GoError

/-- The caller-facing stream, `grpc.ServerStream`, as the forwarding loops use
it; the calls are numbered as for `ClientStream`. -/
structure ServerStream where
  RecvMsg : Nat → Except GoError (List Nat)
  SendHeader : MD → Option GoError
  SendMsg : Nat → frame → Option GoError

/-- A call made by a forwarding loop on its destination stream. -/
inductive StreamOp where
  | SendHeader (md : MD)
  | SendMsg (f : frame)
  deriving DecidableEq, Repr

/-- What a forwarding goroutine has done when it stops: the calls on the
destination, in order, and the error written to the channel `ret` (`none`
while the loop is still running). -/
structure Pump where
  ops : List StreamOp
  signal : Option GoError
  deriving DecidableEq, Repr

/-- The loop of `forwardClientToServer` (lines 190 to 213), run for at most
`fuel` iterations from the counter `i`, the frame `f` and the calls `ops`
already made. The counter is only compared with 0 and is kept unbounded. -/
def forwardClientToServerLoop (src : ClientStream) (dst : ServerStream) :
    Nat → Nat → frame → List StreamOp → Pump
  | 0, _, _, ops => { ops := ops, signal := none }
  | fuel + 1, i, f, ops =>
    match src.RecvMsg i with
    | Except.error err => { ops := ops, signal := some err }
    | Except.ok bytes =>
      let f := { f with payload := bytes }
      if i = 0 then
        match src.Header with
        | Except.error err => { ops := ops, signal := some err }
        | Except.ok md =>
          match dst.SendHeader md with
          | some err => { ops := ops ++ [StreamOp.SendHeader md], signal := some err }
          | none =>
            match dst.SendMsg i f with
            | some err =>
              { ops := ops ++ [StreamOp.SendHeader md, StreamOp.SendMsg f], signal := some err }
            | none =>
              forwardClientToServerLoop src dst fuel (i + 1) f
                (ops ++ [StreamOp.SendHeader md, StreamOp.SendMsg f])
      else
        match dst.SendMsg i f with
        | some err => { ops := ops ++ [StreamOp.SendMsg f], signal := some err }
        | none =>
          forwardClientToServerLoop src dst fuel (i + 1) f (ops ++ [StreamOp.SendMsg f])

/-- The goroutine of `forwardClientToServer`, run for at most `fuel`
iterations. -/
def forwardClientToServer (src : ClientStream) (dst : ServerStream) (fuel : Nat) : Pump :=
  forwardClientToServerLoop src dst fuel 0 {} []

/-- The loop of `forwardServerToClient` (lines 222 to 231), run for at most
`fuel` iterations. -/
def forwardServerToClientLoop (src : ServerStream) (dst : ClientStream) :
    Nat → Nat → frame → List StreamOp → Pump
  | 0, _, _, ops => { ops := ops, signal := none }
  | fuel + 1, i, f, ops =>
    match src.RecvMsg i with
    | Except.error err => { ops := ops, signal := some err }
    | Except.ok bytes =>
      let f := { f with payload := bytes }
      match dst.SendMsg i f with
      | some err => { ops := ops ++ [StreamOp.SendMsg f], signal := some err }
      | none =>
        forwardServerToClientLoop src dst fuel (i + 1) f (ops ++ [StreamOp.SendMsg f])

/-- The goroutine of `forwardServerToClient`, run for at most `fuel`
iterations. -/
def forwardServerToClient (src : ServerStream) (dst : ClientStream) (fuel : Nat) : Pump :=
  forwardServerToClientLoop src dst fuel 0 {} []

/-- The calls `SendMsg` that relay the payloads `ms` unchanged, in order. -/
def relayed (ms : List (List Nat)) : List StreamOp :=
  ms.map fun m => StreamOp.SendMsg { payload := m }

/-! ## Inputs used as examples -/

/-- A call of `/Greeter/SayHello` with request id `r1`, routed to
`10.0.0.1:80`, whose method has the descriptor `d`, whose backend stream
opens unless `openErr` is given, and whose `select` receives `sigs`. -/
def sampleEnv (name : String) (md : Option MD) (d : Option MethodDescriptor)
    (openErr : Option GoError) (sigs : List Signal) : Env :=
  { tStart := 1000000000, tClassify := 1005000000, tEnd := 1042999999
    methodFromServerStream := some name
    director := fun _ => Except.ok ({ incomingMD := md }, { Target := "10.0.0.1:80" })
    resolveService := fun _ => Except.ok fun _ => d
    newClientStream := fun _ => openErr
    signals := sigs }

def unary : MethodDescriptor := { IsClientStreaming := false, IsServerStreaming := false }

def serverStreaming : MethodDescriptor :=
  { IsClientStreaming := false, IsServerStreaming := true }

def withRequestID : Option MD := some [("requestid", ["r1"])]

/-- A unary call that succeeds: both directions signal `io.EOF`. -/
def unaryCall : Env :=
  sampleEnv "/Greeter/SayHello" withRequestID (some unary) none
    [Signal.s2c GoError.EOF, Signal.c2s GoError.EOF]

/-- A server-streaming call that succeeds. -/
def streamingCall : Env :=
  sampleEnv "/Greeter/SayHello" withRequestID (some serverStreaming) none
    [Signal.s2c GoError.EOF, Signal.c2s GoError.EOF]

/-- A call whose metadata carries an empty `requestid`. -/
def emptyRequestIDCall : Env :=
  sampleEnv "/Greeter/SayHello" (some [("requestid", [""])]) (some unary) none []

/-- A call whose backend stream does not open. -/
def failedOpenCall (d : MethodDescriptor) : Env :=
  sampleEnv "/Greeter/SayHello" withRequestID (some d)
    (some (GoError.status codes.Unavailable "backend down")) []

/-- A unary call whose `s2cErrChan` delivers an `Unavailable` status. -/
def s2cUnavailableCall : Env :=
  sampleEnv "/Greeter/SayHello" withRequestID (some unary) none
    [Signal.s2c (GoError.status codes.Unavailable "backend down")]

/-- A unary call whose `s2cErrChan` delivers a plain error first, and whose
`c2sErrChan` delivers a status later. -/
def s2cResetCall : Env :=
  sampleEnv "/Greeter/SayHello" withRequestID (some unary) none
    [Signal.s2c (GoError.other "connection reset"),
     Signal.c2s (GoError.status codes.Unavailable "backend down")]

/-- The descriptor resolution of `sampleEnv` for `/Greeter/SayHello` with the
request id `r1` and the method descriptor `d`. -/
def sampleResolved (d : MethodDescriptor) : Resolved :=
  { fullMethodName := "/Greeter/SayHello"
    body := { Service := "Greeter", Method := "SayHello", ServiceIP := "10.0.0.1:80"
              RequestID := "r1", Created := 1000000000 }
    methodDes := d
    trace := [Event.director "/Greeter/SayHello", Event.resolveService "Greeter",
      Event.findMethodByName "SayHello"] }

/-- A backend stream that delivers the frames `[1, 2]` and `[3]`, then
`io.EOF`, with the header `h=v`. -/
def sampleClientStream : ClientStream :=
  { RecvMsg := fun n =>
      match n with
      | 0 => Except.ok [1, 2]
      | 1 => Except.ok [3]
      | _ => Except.error GoError.EOF
    Header := Except.ok [("h", ["v"])]
    SendMsg := fun _ _ => none }

/-- A caller-facing stream that delivers the frame `[7]`, then `io.EOF`. -/
def sampleServerStream : ServerStream :=
  { RecvMsg := fun n =>
      match n with
      | 0 => Except.ok [7]
      | _ => Except.error GoError.EOF
    SendHeader := fun _ => none
    SendMsg := fun _ _ => none }

/-! ## The trace and the signals -/

/-- The sends of a trace. -/
def sends (tr : List Event) : List Monitor :=
  tr.filterMap fun
    | Event.send m => some m
    | _ => none

/-- Each channel delivers at most one completion signal. -/
def atMostOnce (sigs : List Signal) : Prop :=
  (sigs.filter Signal.isS2C).length ≤ 1 ∧ (sigs.filter Signal.isC2S).length ≤ 1

instance (sigs : List Signal) : Decidable (atMostOnce sigs) := by
  unfold atMostOnce; infer_instance

/-! ## Lemmas on the trace -/

theorem emissions_eq_sends (r : Run) : emissions r = sends r.trace := rfl

theorem sends_append (a b : List Event) : sends (a ++ b) = sends a ++ sends b := by
  simp [sends, List.filterMap_append]

/-- What the select loop adds to a run: the record and the descriptor stay
in place, and the trace grows by calls that are not sends. -/
theorem selectLoop_spec (d : MethodDescriptor) (n : Nat) (sigs : List Signal)
    (body : Monitor) (tr : List Event) :
    (∃ b, (selectLoop d n sigs body tr).body = some b) ∧
    (selectLoop d n sigs body tr).methodDes = some d ∧
    ∃ post, (selectLoop d n sigs body tr).trace = tr ++ post ∧ sends post = [] := by
  induction n generalizing sigs tr with
  | zero => exact ⟨⟨_, rfl⟩, rfl, [], by simp [selectLoop], rfl⟩
  | succ n ih =>
    match sigs with
    | [] => exact ⟨⟨_, rfl⟩, rfl, [], by simp [selectLoop], rfl⟩
    | Signal.s2c e :: rest =>
      by_cases he : e = GoError.EOF
      · obtain ⟨hb, hd, post, hp, hs⟩ := ih rest (tr ++ [Event.closeSend])
        simp only [selectLoop, he, if_true]
        refine ⟨hb, hd, Event.closeSend :: post, ?_, ?_⟩
        · rw [hp]; simp
        · simpa [sends] using hs
      · refine ⟨?_, ?_, [Event.clientCancel], ?_, rfl⟩ <;> simp [selectLoop, he]
    | Signal.c2s e :: rest =>
      by_cases he : e = GoError.EOF
      · refine ⟨?_, ?_, [Event.setTrailer], ?_, rfl⟩ <;> simp [selectLoop, he]
      · refine ⟨?_, ?_, [Event.setTrailer], ?_, rfl⟩ <;> simp [selectLoop, he]

/-- A run that ends before the method descriptor is resolved has made no
send, has opened no backend stream and has no descriptor; it is not blocked. -/
theorem resolveMethod_error (env : Env) (r : Run) (h : resolveMethod env = Except.error r) :
    r.exit ≠ Exit.blocked ∧ r.methodDes = none ∧ sends r.trace = [] ∧
      ∀ ev ∈ r.trace, ev.isNewClientStream = false := by
  unfold resolveMethod at h
  simp only [] at h
  repeat' split at h
  all_goals first
    | (cases h; done)
    | (injection h with h; subst h; simp [sends, Event.isNewClientStream])

/-- Once the method descriptor is resolved no send has been made, no backend
stream has been opened, and the record is as created. -/
theorem resolveMethod_ok (env : Env) (res : Resolved) (h : resolveMethod env = Except.ok res) :
    sends res.trace = [] ∧ (∀ ev ∈ res.trace, ev.isNewClientStream = false) ∧
      res.body.IsStream = false ∧ res.body.ErrMsg = "" ∧ res.body.Created = env.tStart ∧
      env.methodFromServerStream = some res.fullMethodName := by
  unfold resolveMethod at h
  simp only [] at h
  repeat' split at h
  all_goals first
    | (cases h; done)
    | (injection h with h; subst h; simp_all [sends, Event.isNewClientStream])

/-- The sends made by the end of the classification. -/
theorem sends_classify (env : Env) (res : Resolved) (h : sends res.trace = []) :
    sends (classify env res).2 =
      if res.methodDes.streaming then [streamRecord env res.body] else [] := by
  unfold classify
  split
  · rw [sends_append, h]; rfl
  · exact h

/-- The body of the handler after a resolved descriptor: the record and the
descriptor are in place, and after the classification the trace grows by the
opening of the backend stream and by calls that are not sends. -/
theorem handlerBody_resolved (env : Env) (res : Resolved)
    (h : resolveMethod env = Except.ok res) :
    (∃ b, (handlerBody env).body = some b) ∧
    (handlerBody env).methodDes = some res.methodDes ∧
    ∃ post, (handlerBody env).trace =
        (classify env res).2 ++ Event.newClientStream res.fullMethodName :: post ∧
      sends post = [] := by
  unfold handlerBody
  rw [h]
  simp only []
  split
  · exact ⟨⟨_, rfl⟩, rfl, [], rfl, rfl⟩
  · obtain ⟨hb, hd, post, hp, hs⟩ := selectLoop_spec res.methodDes 2 env.signals
      (classify env res).1 ((classify env res).2 ++ [Event.newClientStream res.fullMethodName])
    refine ⟨hb, hd, post, ?_, hs⟩
    rw [hp]; simp

theorem deferred_exit (env : Env) (r : Run) : (deferred env r).exit = r.exit := by
  unfold deferred
  repeat' split
  all_goals rfl

/-- The deferred function on a run that has ended with a record: the record
is closed, and it is sent unless the descriptor is a streaming one. -/
theorem deferred_some (env : Env) (r : Run) (b : Monitor)
    (hexit : r.exit ≠ Exit.blocked) (hb : r.body = some b) :
    (deferred env r).body = some (closeRecord env b) ∧
    (deferred env r).trace = r.trace ++
      (match r.methodDes with
       | some d => if d.streaming then [] else [Event.send (closeRecord env b)]
       | none => [Event.send (closeRecord env b)]) := by
  unfold deferred
  split
  · contradiction
  · rw [hb]
    simp only []
    split
    · split <;> simp
    · simp

theorem deferred_none (env : Env) (r : Run) (hb : r.body = none) : deferred env r = r := by
  unfold deferred
  split
  · rfl
  · rw [hb]

theorem deferred_blocked (env : Env) (r : Run) (h : r.exit = Exit.blocked) :
    deferred env r = r := by
  unfold deferred
  rw [h]

theorem deferred_body_isSome (env : Env) (r : Run) (b : Monitor)
    (h : (deferred env r).body = some b) : ∃ b0, r.body = some b0 := by
  cases hb : r.body with
  | none => rw [deferred_none env r hb, hb] at h; cases h
  | some b0 => exact ⟨b0, rfl⟩

theorem resolveMethod_error_exit (env : Env) (r : Run)
    (h : resolveMethod env = Except.error r) (site : Site) :
    r.exit ≠ Exit.returned site none := by
  unfold resolveMethod at h
  simp only [] at h
  repeat' split at h
  all_goals first
    | (cases h; done)
    | (injection h with h; subst h; simp)

/-- The trace at the resolution of the descriptor: the director, then the two
calls of the reflection client. -/
theorem resolveMethod_ok_trace (env : Env) (res : Resolved)
    (h : resolveMethod env = Except.ok res) :
    ∃ m1 m2, res.trace = [Event.director res.fullMethodName, Event.resolveService m1,
      Event.findMethodByName m2] := by
  unfold resolveMethod at h
  simp only [] at h
  repeat' split at h
  all_goals first
    | (cases h; done)
    | (injection h with h; subst h; exact ⟨_, _, rfl⟩)

theorem not_mem_classify (env : Env) (res : Resolved) (ev : Event)
    (hres : ev ∉ res.trace) (hsend : ev.isSend = false) : ev ∉ (classify env res).2 := by
  unfold classify
  split
  · intro h
    rw [List.mem_append] at h
    rcases h with h | h
    · exact hres h
    · simp at h; subst h; simp [Event.isSend] at hsend
  · exact hres

theorem mem_deferred_trace (env : Env) (r : Run) (ev : Event) (h : ev ∈ r.trace) :
    ev ∈ (deferred env r).trace := by
  unfold deferred
  repeat' split
  all_goals simp [h]

theorem mem_deferred_trace_iff (env : Env) (r : Run) (ev : Event) (hsend : ev.isSend = false) :
    ev ∈ (deferred env r).trace ↔ ev ∈ r.trace := by
  constructor
  · unfold deferred
    repeat' split
    all_goals
      intro h
      first
        | exact h
        | (simp only [List.mem_append, List.mem_singleton] at h
           rcases h with h | h
           · exact h
           · subst h; simp [Event.isSend] at hsend)
  · exact mem_deferred_trace env r ev

/-- The body of the handler once the backend stream is open: the select
loop. -/
theorem handlerBody_opened (env : Env) (res : Resolved)
    (hres : resolveMethod env = Except.ok res)
    (hopen : env.newClientStream res.fullMethodName = none) :
    handlerBody env = selectLoop res.methodDes 2 env.signals (classify env res).1
      ((classify env res).2 ++ [Event.newClientStream res.fullMethodName]) := by
  unfold handlerBody
  rw [hres]
  simp only [hopen]

/-- The body of the handler when the backend stream fails to open. -/
theorem handlerBody_openErr (env : Env) (res : Resolved) (e : GoError)
    (hres : resolveMethod env = Except.ok res)
    (hopen : env.newClientStream res.fullMethodName = some e) :
    handlerBody env =
      { exit := Exit.returned Site.openErr (some e)
        body := some { (classify env res).1 with ErrMsg := e.Error }
        methodDes := some res.methodDes
        trace := (classify env res).2 ++ [Event.newClientStream res.fullMethodName] } := by
  unfold handlerBody
  rw [hres]
  simp only [hopen]

/-! ## Lemmas on the select loop -/

/-- The statements after the loop are reached only when every iteration has
received `io.EOF` from `s2cErrChan`. -/
theorem selectLoop_neverReach (d : MethodDescriptor) (n : Nat) (sigs : List Signal)
    (body : Monitor) (tr : List Event) (err : Option GoError)
    (h : (selectLoop d n sigs body tr).exit = Exit.returned Site.neverReach err) :
    n ≤ (sigs.filter Signal.isS2C).length := by
  induction n generalizing sigs tr with
  | zero => exact Nat.zero_le _
  | succ n ih =>
    match sigs with
    | [] => simp [selectLoop] at h
    | Signal.s2c e :: rest =>
      by_cases he : e = GoError.EOF
      · simp only [selectLoop, he, if_true] at h
        have := ih rest _ h
        simp [Signal.isS2C]
        exact this
      · simp [selectLoop, he] at h
    | Signal.c2s e :: rest =>
      by_cases he : e = GoError.EOF <;> simp [selectLoop, he] at h

/-- The loop returns `nil` exactly when it receives `io.EOF` from `c2sErrChan`
after nothing but `io.EOF` from `s2cErrChan`, within its iterations. -/
theorem selectLoop_nil_iff (d : MethodDescriptor) (n : Nat) (sigs : List Signal)
    (body : Monitor) (tr : List Event) :
    (∃ site, (selectLoop d n sigs body tr).exit = Exit.returned site none) ↔
      ∃ pre post, sigs = pre ++ Signal.c2s GoError.EOF :: post ∧
        (∀ x ∈ pre, x = Signal.s2c GoError.EOF) ∧ pre.length < n := by
  induction n generalizing sigs tr with
  | zero => simp [selectLoop]
  | succ n ih =>
    match sigs with
    | [] => simp [selectLoop]
    | Signal.s2c e :: rest =>
      by_cases he : e = GoError.EOF
      · subst he
        simp only [selectLoop, if_true]
        rw [ih]
        constructor
        · rintro ⟨pre, post, hsig, hpre, hlen⟩
          refine ⟨Signal.s2c GoError.EOF :: pre, post, by simp [hsig], ?_, by simpa using hlen⟩
          intro x hx
          simp at hx
          rcases hx with hx | hx
          · exact hx
          · exact hpre x hx
        · rintro ⟨pre, post, hsig, hpre, hlen⟩
          cases pre with
          | nil => simp at hsig
          | cons x pre =>
            simp at hsig
            refine ⟨pre, post, hsig.2, fun y hy => hpre y (by simp [hy]), by simpa using hlen⟩
      · simp only [selectLoop, he, if_false]
        constructor
        · rintro ⟨site, h⟩
          simp at h
        · rintro ⟨pre, post, hsig, hpre, _⟩
          cases pre with
          | nil => simp at hsig
          | cons x pre =>
            simp at hsig
            have := hpre x (by simp)
            rw [← hsig.1] at this
            simp at this
            exact absurd this he
    | Signal.c2s e :: rest =>
      by_cases he : e = GoError.EOF
      · subst he
        simp only [selectLoop, ne_eq, not_true_eq_false, if_false]
        constructor
        · intro _
          exact ⟨[], rest, rfl, by simp, by simp⟩
        · intro _
          exact ⟨_, rfl⟩
      · simp only [selectLoop, he, ne_eq, not_false_eq_true, if_true]
        constructor
        · rintro ⟨site, h⟩
          simp at h
        · rintro ⟨pre, post, hsig, hpre, _⟩
          cases pre with
          | nil => simp at hsig; exact absurd hsig.1 he
          | cons x pre =>
            simp at hsig
            have := hpre x (by simp)
            rw [← hsig.1] at this
            simp at this

/-- The loop sets the trailers exactly when it returns from the case of
`c2sErrChan`. -/
theorem selectLoop_setTrailer (d : MethodDescriptor) (n : Nat) (sigs : List Signal)
    (body : Monitor) (tr : List Event) (h : Event.setTrailer ∉ tr) :
    Event.setTrailer ∈ (selectLoop d n sigs body tr).trace ↔
      ∃ err, (selectLoop d n sigs body tr).exit = Exit.returned Site.c2sDone err := by
  induction n generalizing sigs tr with
  | zero => simp [selectLoop, h]
  | succ n ih =>
    match sigs with
    | [] => simp [selectLoop, h]
    | Signal.s2c e :: rest =>
      by_cases he : e = GoError.EOF
      · simp only [selectLoop, he, if_true]
        exact ih rest _ (by simp [h])
      · simp [selectLoop, he, h]
    | Signal.c2s e :: rest =>
      by_cases he : e = GoError.EOF <;> simp [selectLoop, he]

/-! ## The telemetry emission -/

/-- The run of a call whose method is streaming: the early send sits right
before the opening of the backend stream, and it is the only send. -/
theorem handler_streaming (env : Env) (res : Resolved)
    (hres : resolveMethod env = Except.ok res)
    (hs : res.methodDes.IsClientStreaming = true ∨ res.methodDes.IsServerStreaming = true) :
    (∃ post, (handler env).trace =
        res.trace ++ Event.send (streamRecord env res.body) ::
          Event.newClientStream res.fullMethodName :: post ∧
        (∀ ev ∈ res.trace, ev.isSend = false ∧ ev.isNewClientStream = false) ∧
        ∀ ev ∈ post, ev.isSend = false) ∧
    emissions (handler env) = [streamRecord env res.body] := by
  have hstr : res.methodDes.streaming = true := by
    unfold MethodDescriptor.streaming
    rcases hs with h | h <;> simp [h]
  obtain ⟨⟨b0, hb0⟩, hd, post, hp, hpost⟩ := handlerBody_resolved env res hres
  obtain ⟨hs0, hopen0, _⟩ := resolveMethod_ok env res hres
  have hcl : (classify env res).2 = res.trace ++ [Event.send (streamRecord env res.body)] := by
    unfold classify; rw [if_pos hstr]
  have htrace : (handler env).trace =
      res.trace ++ Event.send (streamRecord env res.body) ::
        Event.newClientStream res.fullMethodName :: post := by
    unfold handler
    by_cases hexit : (handlerBody env).exit = Exit.blocked
    · rw [deferred_blocked env _ hexit, hp, hcl]; simp
    · rw [(deferred_some env _ b0 hexit hb0).2, hd, hp, hcl]; simp [hstr]
  have hnosend : ∀ tr : List Event, sends tr = [] → ∀ ev ∈ tr, ev.isSend = false := by
    intro tr htr ev hev
    cases ev <;> simp [Event.isSend]
    rename_i m
    have : m ∈ sends tr := by
      unfold sends
      rw [List.mem_filterMap]
      exact ⟨_, hev, rfl⟩
    rw [htr] at this
    cases this
  refine ⟨⟨post, htrace, fun ev hev => ⟨hnosend _ hs0 ev hev, hopen0 ev hev⟩, hnosend _ hpost⟩,
    ?_⟩
  rw [emissions_eq_sends, htrace, sends_append, hs0]
  simp [sends]
  simpa [sends] using hpost

/-- C1: in every run of `handler.handler` that created the Call Record and
that ends (whatever the exit path: resolution error, unknown method, failure
to open the backend stream, forwarding error, success), the record is handed
to `mq.Send` exactly once. -/
theorem exactly_one_emission (env : Env) (b : Monitor)
    (hbody : (handler env).body = some b) (hexit : (handler env).exit ≠ Exit.blocked) :
    (emissions (handler env)).length = 1 := by
  unfold handler at hbody hexit ⊢
  rw [deferred_exit] at hexit
  obtain ⟨b0, hb0⟩ := deferred_body_isSome env _ b hbody
  rw [emissions_eq_sends, (deferred_some env _ b0 hexit hb0).2, sends_append]
  cases hres : resolveMethod env with
  | error r =>
    have hr : handlerBody env = r := by unfold handlerBody; rw [hres]
    obtain ⟨_, hd, hs, _⟩ := resolveMethod_error env r hres
    rw [hr, hd, hs]
    rfl
  | ok res =>
    obtain ⟨_, hd, post, hp, hs⟩ := handlerBody_resolved env res hres
    obtain ⟨hs0, _⟩ := resolveMethod_ok env res hres
    have hpost : sends (Event.newClientStream res.fullMethodName :: post) = [] := by
      simpa [sends] using hs
    rw [hd, hp, sends_append, sends_classify env res hs0, hpost]
    cases hstr : res.methodDes.streaming <;> simp [sends, hstr]

/-- The inputs of C1 are met by a unary call that succeeds. -/
theorem exactly_one_emission_witness :
    (handler unaryCall).exit = Exit.returned Site.c2sDone none ∧
    (emissions (handler unaryCall)).length = 1 :=
  ⟨rfl, exactly_one_emission unaryCall _ rfl (by decide)⟩

/-- C2: when the resolved method descriptor reports client or server
streaming, the record is sent exactly once, at the classification (right
before `grpc.NewClientStream`, and after no earlier opening), marked as a
stream and with the milliseconds since the start as duration; the deferred
function sends nothing more. -/
theorem streaming_emitted_once_at_classification (env : Env) (res : Resolved)
    (hres : resolveMethod env = Except.ok res)
    (hs : res.methodDes.IsClientStreaming = true ∨ res.methodDes.IsServerStreaming = true) :
    (∃ post, (handler env).trace =
        res.trace ++ Event.send (streamRecord env res.body) ::
          Event.newClientStream res.fullMethodName :: post ∧
        (∀ ev ∈ res.trace, ev.isSend = false ∧ ev.isNewClientStream = false) ∧
        ∀ ev ∈ post, ev.isSend = false) ∧
    emissions (handler env) = [streamRecord env res.body] ∧
    (streamRecord env res.body).IsStream = true ∧
    (streamRecord env res.body).Duration =
      time.Milliseconds (time.Sub env.tClassify env.tStart) :=
  ⟨(handler_streaming env res hres hs).1, (handler_streaming env res hres hs).2, rfl, rfl⟩

/-- The inputs of C2 are met by a server-streaming call that succeeds: the
one record sent is a stream of 5 milliseconds. -/
theorem streaming_emitted_once_at_classification_witness :
    resolveMethod streamingCall = Except.ok (sampleResolved serverStreaming) ∧
    emissions (handler streamingCall) =
      [{ Service := "Greeter", Method := "SayHello", ServiceIP := "10.0.0.1:80"
         RequestID := "r1", Created := 1000000000, EndTime := 1005000000, Duration := 5
         IsStream := true, ErrMsg := "" }] :=
  ⟨rfl, (streaming_emitted_once_at_classification streamingCall
    (sampleResolved serverStreaming) rfl (Or.inr rfl)).2.1⟩

/-- C3: when the director succeeds and the metadata of the outgoing context
has no `requestid` value, or an empty first one, the handler returns a
`PermissionDenied` status, creates and sends no Call Record, resolves no
descriptor and opens no backend stream. -/
theorem missing_requestid_denied (env : Env) (name : String) (ctx : Context)
    (conn : ClientConn)
    (hname : env.methodFromServerStream = some name)
    (hdir : env.director name = Except.ok (ctx, conn))
    (hid : ∀ md, metadata.FromIncomingContext ctx = some md →
      metadata.Get md "requestid" = [] ∨ (metadata.Get md "requestid").head? = some "") :
    (∃ site msg, (handler env).exit =
        Exit.returned site (some (GoError.status codes.PermissionDenied msg))) ∧
    (handler env).body = none ∧
    emissions (handler env) = [] ∧
    ∀ ev ∈ (handler env).trace,
      ev.isSend = false ∧ ev.isResolve = false ∧ ev.isNewClientStream = false := by
  have key : ∃ site msg, resolveMethod env = Except.error
      { exit := Exit.returned site (some (GoError.status codes.PermissionDenied msg))
        body := none, methodDes := none, trace := [Event.director name] } := by
    unfold resolveMethod
    simp only [hname, hdir]
    cases hmd : metadata.FromIncomingContext ctx with
    | none => exact ⟨Site.noMetadata, "Parse request context failed", rfl⟩
    | some md =>
      refine ⟨Site.noRequestID, "Must params not passed", ?_⟩
      dsimp only
      rcases hid md hmd with h | h
      · simp only [h]; rfl
      · cases hget : metadata.Get md "requestid" with
        | nil => rfl
        | cons r0 tl =>
          rw [hget] at h
          simp only [List.head?_cons, Option.some.injEq] at h
          subst h
          simp only [if_true]
          rfl
  obtain ⟨site, msg, hk⟩ := key
  have hrun : handler env =
      { exit := Exit.returned site (some (GoError.status codes.PermissionDenied msg))
        body := none, methodDes := none, trace := [Event.director name] } := by
    unfold handler handlerBody
    rw [hk]
    exact deferred_none env _ rfl
  rw [hrun]
  refine ⟨⟨site, msg, rfl⟩, rfl, rfl, ?_⟩
  intro ev hev
  simp at hev
  subst hev
  exact ⟨rfl, rfl, rfl⟩

/-- The inputs of C3 are met by a call whose metadata has an empty
`requestid`: no record is created. -/
theorem missing_requestid_denied_witness :
    emptyRequestIDCall.director "/Greeter/SayHello" =
      Except.ok ({ incomingMD := some [("requestid", [""])] }, { Target := "10.0.0.1:80" }) ∧
    (handler emptyRequestIDCall).body = none :=
  ⟨rfl, (missing_requestid_denied emptyRequestIDCall "/Greeter/SayHello"
      { incomingMD := some [("requestid", [""])] } { Target := "10.0.0.1:80" } rfl rfl
      (fun md h => by cases h; exact Or.inr rfl)).2.1⟩

/-- C10: for a call classified as streaming, the deferred function overwrites
the record that was already sent: when the handler has ended the record has
`IsStream = false` and the end time and duration of the close, while the one
emission is the early one, marked as a stream. -/
theorem finalizer_overwrites_stream_record (env : Env) (res : Resolved)
    (hres : resolveMethod env = Except.ok res)
    (hs : res.methodDes.IsClientStreaming = true ∨ res.methodDes.IsServerStreaming = true)
    (hexit : (handler env).exit ≠ Exit.blocked) :
    ∃ b, (handler env).body = some b ∧ b.IsStream = false ∧ b.EndTime = env.tEnd ∧
      b.Duration = time.Milliseconds (time.Sub env.tEnd env.tStart) ∧
      emissions (handler env) = [streamRecord env res.body] ∧
      (streamRecord env res.body).IsStream = true ∧
      (streamRecord env res.body).EndTime = env.tClassify := by
  obtain ⟨⟨b0, hb0⟩, _⟩ := handlerBody_resolved env res hres
  have hexit0 : (handlerBody env).exit ≠ Exit.blocked := by
    unfold handler at hexit; rwa [deferred_exit] at hexit
  refine ⟨closeRecord env b0, ?_, rfl, rfl, rfl, (handler_streaming env res hres hs).2, rfl, rfl⟩
  unfold handler
  exact (deferred_some env _ b0 hexit0 hb0).1

/-- The inputs of C10 are met by a server-streaming call that succeeds: the
record ends with `IsStream = false` although it was sent with
`IsStream = true`. -/
theorem finalizer_overwrites_stream_record_witness :
    (handler streamingCall).exit = Exit.returned Site.c2sDone none ∧
    ∃ b, (handler streamingCall).body = some b ∧ b.IsStream = false ∧
      b.EndTime = streamingCall.tEnd ∧
      b.Duration = time.Milliseconds (time.Sub streamingCall.tEnd streamingCall.tStart) ∧
      emissions (handler streamingCall) =
        [streamRecord streamingCall (sampleResolved serverStreaming).body] ∧
      (streamRecord streamingCall (sampleResolved serverStreaming).body).IsStream = true ∧
      (streamRecord streamingCall (sampleResolved serverStreaming).body).EndTime =
        streamingCall.tClassify :=
  ⟨rfl, finalizer_overwrites_stream_record streamingCall (sampleResolved serverStreaming)
    rfl (Or.inr rfl) (by decide)⟩

/-! ## Failure to open the backend stream -/

/-- C5, as stated, fails: for a server-streaming method whose backend stream
does not open, the handler returns the error, the deferred function sends
nothing (the trace ends with the call of `grpc.NewClientStream`), and the one
record sent is the early one, which carries no error message. -/
theorem open_failure_streaming_not_emitted_at_end :
    (handler (failedOpenCall serverStreaming)).exit =
      Exit.returned Site.openErr (some (GoError.status codes.Unavailable "backend down")) ∧
    (handler (failedOpenCall serverStreaming)).trace.getLast? =
      some (Event.newClientStream "/Greeter/SayHello") ∧
    emissions (handler (failedOpenCall serverStreaming)) =
      [{ Service := "Greeter", Method := "SayHello", ServiceIP := "10.0.0.1:80"
         RequestID := "r1", Created := 1000000000, EndTime := 1005000000, Duration := 5
         IsStream := true, ErrMsg := "" }] := by
  decide

/-- C5, amended: when `grpc.NewClientStream` fails with `e` the handler
records the text of `e` in `ErrMsg` and returns `e`; for a method that is not
streaming the deferred function then sends the record, with that message, as
the last call of the run and the only emission; for a streaming method the
deferred function sends nothing and the only emission is the early one. -/
theorem open_failure_recorded (env : Env) (res : Resolved) (e : GoError)
    (hres : resolveMethod env = Except.ok res)
    (hopen : env.newClientStream res.fullMethodName = some e) :
    (handler env).exit = Exit.returned Site.openErr (some e) ∧
    (∃ b, (handler env).body = some b ∧ b.ErrMsg = e.Error ∧
      (res.methodDes.streaming = false →
        emissions (handler env) = [b] ∧ (handler env).trace.getLast? = some (Event.send b))) ∧
    (res.methodDes.streaming = true →
      emissions (handler env) = [streamRecord env res.body] ∧
      (handler env).trace.getLast? = some (Event.newClientStream res.fullMethodName)) := by
  have hbody := handlerBody_openErr env res e hres hopen
  obtain ⟨hs0, _⟩ := resolveMethod_ok env res hres
  have hsc := sends_classify env res hs0
  have hdef := deferred_some env (handlerBody env)
    { (classify env res).1 with ErrMsg := e.Error } (by rw [hbody]; simp) (by rw [hbody])
  unfold handler
  refine ⟨by rw [deferred_exit, hbody], ⟨_, hdef.1, rfl, ?_⟩, ?_⟩
  · intro hstr
    rw [emissions_eq_sends, hdef.2, hbody]
    simp only [hstr, Bool.false_eq_true, if_false]
    refine ⟨?_, by simp⟩
    rw [sends_append, sends_append, hsc, hstr]
    simp [sends]
  · intro hstr
    rw [emissions_eq_sends, hdef.2, hbody]
    simp only [hstr, if_true, List.append_nil]
    refine ⟨?_, by simp⟩
    rw [sends_append, hsc, hstr]
    simp [sends]

/-- The inputs of the amended C5 are met by a unary call whose backend stream
does not open: the handler returns the error of the opening. -/
theorem open_failure_recorded_witness :
    resolveMethod (failedOpenCall unary) = Except.ok (sampleResolved unary) ∧
    (handler (failedOpenCall unary)).exit =
      Exit.returned Site.openErr (some (GoError.status codes.Unavailable "backend down")) :=
  ⟨rfl, (open_failure_recorded (failedOpenCall unary) (sampleResolved unary)
    (GoError.status codes.Unavailable "backend down") rfl rfl).1⟩

/-! ## The method name -/

/-- C6 fails on the code: for the method name `Greeter/SayHello`, which
splits on `/` into two parts, with a director that succeeds and a request id,
the handler does not return an `Internal` status: the index expression
`method[2]` is out of range for the length 2 and the handler panics, with no
Call Record. For `Greeter` it is `method[1]` that is out of range. -/
theorem malformed_method_name_panics :
    (handler (sampleEnv "Greeter/SayHello" withRequestID (some unary) none [])).exit =
      Exit.indexOutOfRange 2 2 ∧
    (handler (sampleEnv "Greeter/SayHello" withRequestID (some unary) none [])).body = none ∧
    (handler (sampleEnv "Greeter" withRequestID (some unary) none [])).exit =
      Exit.indexOutOfRange 1 1 ∧
    (handler (sampleEnv "/Greeter" withRequestID (some unary) none [])).exit =
      Exit.indexOutOfRange 2 2 := by
  decide

/-! ## The completion of the two directions -/

/-- C4, as stated, fails: when `s2cErrChan` delivers a status error of code
`Unavailable`, the handler cancels the backend context and returns a status
error of code `Internal`, not of code `Unavailable`. -/
theorem s2c_error_code_not_preserved :
    (handler s2cUnavailableCall).exit =
      Exit.returned Site.s2cErr (some (GoError.status codes.Internal
        "failed proxying s2c: rpc error: code = Unavailable desc = backend down")) ∧
    status.Code (GoError.status codes.Internal
        "failed proxying s2c: rpc error: code = Unavailable desc = backend down") ≠
      status.Code (GoError.status codes.Unavailable "backend down") := by
  decide

/-- C4, amended: when the case of `s2cErrChan` receives an error `e` other
than `io.EOF` (as the first signal, or after an `io.EOF` of the same
channel), the handler calls `clientCancel`, sets no trailers, and returns a
status error whose code is `Internal` whatever the code of `e`, and whose
message is `failed proxying s2c: ` followed by the text of `e`. -/
theorem s2c_error_cancels_and_returns_internal (env : Env) (res : Resolved) (e : GoError)
    (pre rest : List Signal)
    (hres : resolveMethod env = Except.ok res)
    (hopen : env.newClientStream res.fullMethodName = none)
    (hsig : env.signals = pre ++ Signal.s2c e :: rest)
    (hpre : pre = [] ∨ pre = [Signal.s2c GoError.EOF])
    (he : e ≠ GoError.EOF) :
    (handler env).exit = Exit.returned Site.s2cErr
      (some (GoError.status codes.Internal ("failed proxying s2c: " ++ e.Error))) ∧
    Event.clientCancel ∈ (handler env).trace ∧
    Event.setTrailer ∉ (handler env).trace ∧
    status.Code (GoError.status codes.Internal ("failed proxying s2c: " ++ e.Error)) =
      codes.Internal := by
  obtain ⟨m1, m2, htr⟩ := resolveMethod_ok_trace env res hres
  have hnot : Event.setTrailer ∉
      (classify env res).2 ++ [Event.newClientStream res.fullMethodName] := by
    intro h
    rw [List.mem_append] at h
    rcases h with h | h
    · exact not_mem_classify env res Event.setTrailer (by rw [htr]; simp) rfl h
    · simp at h
  have hloop := handlerBody_opened env res hres hopen
  have hexit : (handlerBody env).exit = Exit.returned Site.s2cErr
      (some (GoError.status codes.Internal ("failed proxying s2c: " ++ e.Error))) := by
    rw [hloop, hsig]
    rcases hpre with h | h <;> subst h <;>
      simp [selectLoop, he, grpc.Errorf, status.Error]
  have hcancel : Event.clientCancel ∈ (handlerBody env).trace := by
    rw [hloop, hsig]
    rcases hpre with h | h <;> subst h <;> simp [selectLoop, he]
  have htrailer : Event.setTrailer ∉ (handlerBody env).trace := by
    rw [hloop, selectLoop_setTrailer _ _ _ _ _ hnot, ← hloop, hexit]
    simp
  unfold handler
  refine ⟨by rw [deferred_exit, hexit], mem_deferred_trace env _ _ hcancel, ?_, rfl⟩
  rw [mem_deferred_trace_iff env _ Event.setTrailer rfl]
  exact htrailer

/-- The inputs of the amended C4 are met by a unary call whose `s2cErrChan`
delivers an `Unavailable` status first: the backend context is cancelled. -/
theorem s2c_error_cancels_and_returns_internal_witness :
    resolveMethod s2cUnavailableCall = Except.ok (sampleResolved unary) ∧
    Event.clientCancel ∈ (handler s2cUnavailableCall).trace :=
  ⟨rfl, (s2c_error_cancels_and_returns_internal s2cUnavailableCall (sampleResolved unary)
    (GoError.status codes.Unavailable "backend down") [] [] rfl rfl rfl (Or.inl rfl)
    (by decide)).2.1⟩

/-- C7, as stated, fails: when `s2cErrChan` delivers an error other than
`io.EOF` first, the backend stream has been opened and the handler returns
without the call `serverStream.SetTrailer`. -/
theorem trailers_not_set_on_s2c_error :
    Event.newClientStream "/Greeter/SayHello" ∈ (handler s2cResetCall).trace ∧
    (handler s2cResetCall).exit =
      Exit.returned Site.s2cErr (some (GoError.status codes.Internal
        "failed proxying s2c: connection reset")) ∧
    Event.setTrailer ∉ (handler s2cResetCall).trace := by
  decide

/-- C7, amended: once the backend stream is open, the handler has called
`serverStream.SetTrailer` when it ends exactly when it returns from the case
of `c2sErrChan`, whatever the error of that signal; a return from the case of
`s2cErrChan` sets no trailers. -/
theorem trailers_set_iff_c2s_return (env : Env) (res : Resolved)
    (hres : resolveMethod env = Except.ok res)
    (hopen : env.newClientStream res.fullMethodName = none) :
    Event.setTrailer ∈ (handler env).trace ↔
      ∃ err, (handler env).exit = Exit.returned Site.c2sDone err := by
  obtain ⟨m1, m2, htr⟩ := resolveMethod_ok_trace env res hres
  have hnot : Event.setTrailer ∉
      (classify env res).2 ++ [Event.newClientStream res.fullMethodName] := by
    intro h
    rw [List.mem_append] at h
    rcases h with h | h
    · exact not_mem_classify env res Event.setTrailer (by rw [htr]; simp) rfl h
    · simp at h
  unfold handler
  rw [mem_deferred_trace_iff env _ Event.setTrailer rfl, deferred_exit,
    handlerBody_opened env res hres hopen]
  exact selectLoop_setTrailer _ _ _ _ _ hnot

/-- The inputs of the amended C7 are met by a unary call that succeeds: the
trailers are set. -/
theorem trailers_set_iff_c2s_return_witness :
    resolveMethod unaryCall = Except.ok (sampleResolved unary) ∧
    Event.setTrailer ∈ (handler unaryCall).trace :=
  ⟨rfl, (trailers_set_iff_c2s_return unaryCall (sampleResolved unary) rfl rfl).2
    ⟨none, rfl⟩⟩

/-- C9: when each channel delivers at most one completion signal, the handler
never leaves through the statements after the select loop (lines 182 and
183), whatever the order and the errors of the signals; and it returns `nil`
exactly when the backend stream was opened and the signal of `c2sErrChan` is
`io.EOF`, received after nothing but an `io.EOF` of `s2cErrChan`. -/
theorem never_reaches_final_stage (env : Env) (hsig : atMostOnce env.signals) :
    (∀ err, (handler env).exit ≠ Exit.returned Site.neverReach err) ∧
    ((∃ site, (handler env).exit = Exit.returned site none) ↔
      ∃ res, resolveMethod env = Except.ok res ∧
        env.newClientStream res.fullMethodName = none ∧
        ∃ pre post, env.signals = pre ++ Signal.c2s GoError.EOF :: post ∧
          ∀ x ∈ pre, x = Signal.s2c GoError.EOF) := by
  unfold handler
  simp only [deferred_exit]
  cases hres : resolveMethod env with
  | error r =>
    have hr : handlerBody env = r := by unfold handlerBody; rw [hres]
    rw [hr]
    constructor
    · intro err h
      unfold resolveMethod at hres
      simp only [] at hres
      repeat' split at hres
      all_goals first
        | (cases hres; done)
        | (injection hres with hres; subst hres; simp at h)
    · constructor
      · rintro ⟨site, h⟩
        exact absurd h (resolveMethod_error_exit env r hres site)
      · rintro ⟨res, h, _⟩
        cases h
  | ok res =>
    cases hopen : env.newClientStream res.fullMethodName with
    | some e =>
      rw [handlerBody_openErr env res e hres hopen]
      constructor
      · intro err h
        simp at h
      · constructor
        · rintro ⟨site, h⟩
          simp at h
        · rintro ⟨res', h, hopen', _⟩
          cases h
          rw [hopen] at hopen'
          cases hopen'
    | none =>
      rw [handlerBody_opened env res hres hopen]
      constructor
      · intro err h
        have := selectLoop_neverReach _ _ _ _ _ _ h
        have := hsig.1
        omega
      · rw [selectLoop_nil_iff]
        constructor
        · rintro ⟨pre, post, h, hpre, _⟩
          exact ⟨res, rfl, hopen, pre, post, h, hpre⟩
        · rintro ⟨res', h, _, pre, post, hs, hpre⟩
          refine ⟨pre, post, hs, hpre, ?_⟩
          have h1 := hsig.1
          rw [hs, List.filter_append] at h1
          have h2 : List.filter Signal.isS2C pre = pre := by
            rw [List.filter_eq_self]
            intro x hx
            rw [hpre x hx]
            rfl
          rw [h2, List.length_append] at h1
          omega

/-- The input of C9 is met by a unary call whose two directions signal
`io.EOF` once each: it returns `nil`. -/
theorem never_reaches_final_stage_witness :
    atMostOnce unaryCall.signals ∧
    ∃ site, (handler unaryCall).exit = Exit.returned site none :=
  ⟨by decide, (never_reaches_final_stage unaryCall (by decide)).2.2
    ⟨sampleResolved unary, rfl, rfl, [Signal.s2c GoError.EOF], [], rfl,
      fun x hx => by simpa using hx⟩⟩

/-! ## The forwarding loops -/

/-- The loop of `forwardClientToServer` past its first iteration: the frames
`rest` then the error `e` are relayed as they come. -/
theorem forwardClientToServerLoop_relays (src : ClientStream) (dst : ServerStream)
    (e : GoError) (rest : List (List Nat)) (i : Nat) (hi : i ≠ 0) (f : frame)
    (ops : List StreamOp) (fuel : Nat)
    (hrecv : ∀ j m, rest[j]? = some m → src.RecvMsg (i + j) = Except.ok m)
    (herr : src.RecvMsg (i + rest.length) = Except.error e)
    (hsend : ∀ j m, rest[j]? = some m → dst.SendMsg (i + j) { payload := m } = none)
    (hfuel : rest.length < fuel) :
    forwardClientToServerLoop src dst fuel i f ops =
      { ops := ops ++ relayed rest, signal := some e } := by
  induction rest generalizing i f ops fuel with
  | nil =>
    cases fuel with
    | zero => simp at hfuel
    | succ fuel =>
      simp only [List.length_nil, Nat.add_zero] at herr
      simp [forwardClientToServerLoop, herr, relayed]
  | cons m rest ih =>
    cases fuel with
    | zero => simp at hfuel
    | succ fuel =>
      have h0 := hrecv 0 m (by simp)
      have s0 := hsend 0 m (by simp)
      simp only [Nat.add_zero] at h0 s0
      simp only [forwardClientToServerLoop, h0, hi, if_false, s0]
      rw [ih (i + 1) (Nat.succ_ne_zero i) _ _ fuel
        (fun j m' hj => by
          have := hrecv (j + 1) m' (by simpa using hj)
          rwa [show i + (j + 1) = i + 1 + j by omega] at this)
        (by
          rw [show i + 1 + rest.length = i + (m :: rest).length by simp; omega]
          exact herr)
        (fun j m' hj => by
          have := hsend (j + 1) m' (by simpa using hj)
          rwa [show i + (j + 1) = i + 1 + j by omega] at this)
        (by simpa using hfuel)]
      simp [relayed]

/-- The loop of `forwardServerToClient`: the frames `rest` then the error `e`
are relayed as they come. -/
theorem forwardServerToClientLoop_relays (src : ServerStream) (dst : ClientStream)
    (e : GoError) (rest : List (List Nat)) (i : Nat) (f : frame)
    (ops : List StreamOp) (fuel : Nat)
    (hrecv : ∀ j m, rest[j]? = some m → src.RecvMsg (i + j) = Except.ok m)
    (herr : src.RecvMsg (i + rest.length) = Except.error e)
    (hsend : ∀ j m, rest[j]? = some m → dst.SendMsg (i + j) { payload := m } = none)
    (hfuel : rest.length < fuel) :
    forwardServerToClientLoop src dst fuel i f ops =
      { ops := ops ++ relayed rest, signal := some e } := by
  induction rest generalizing i f ops fuel with
  | nil =>
    cases fuel with
    | zero => simp at hfuel
    | succ fuel =>
      simp only [List.length_nil, Nat.add_zero] at herr
      simp [forwardServerToClientLoop, herr, relayed]
  | cons m rest ih =>
    cases fuel with
    | zero => simp at hfuel
    | succ fuel =>
      have h0 := hrecv 0 m (by simp)
      have s0 := hsend 0 m (by simp)
      simp only [Nat.add_zero] at h0 s0
      simp only [forwardServerToClientLoop, h0, s0]
      rw [ih (i + 1) _ _ fuel
        (fun j m' hj => by
          have := hrecv (j + 1) m' (by simpa using hj)
          rwa [show i + (j + 1) = i + 1 + j by omega] at this)
        (by
          rw [show i + 1 + rest.length = i + (m :: rest).length by simp; omega]
          exact herr)
        (fun j m' hj => by
          have := hsend (j + 1) m' (by simpa using hj)
          rwa [show i + (j + 1) = i + 1 + j by omega] at this)
        (by simpa using hfuel)]
      simp [relayed]

/-- C8: when the backend stream delivers the frames `ms` and then the receive
error `e`, and `Header`, `SendHeader` and `SendMsg` succeed, the calls of
`forwardClientToServer` on the caller-facing stream are `SendHeader(h)` once,
then one `SendMsg` per frame, in order and with the payload received (no call
at all when there is no frame), and its signal is `e`; likewise
`forwardServerToClient` sends the frames `ms'` in order, unchanged, and
signals `e'`. In both the loop ends within one iteration more than the number
of frames. -/
theorem forward_relays_frames (cs : ClientStream) (ss : ServerStream)
    (ms ms' : List (List Nat)) (e e' : GoError) (h : MD) (fuel fuel' : Nat)
    (hrecv : ∀ j m, ms[j]? = some m → cs.RecvMsg j = Except.ok m)
    (herr : cs.RecvMsg ms.length = Except.error e)
    (hheader : ms ≠ [] → cs.Header = Except.ok h ∧ ss.SendHeader h = none)
    (hsend : ∀ j m, ms[j]? = some m → ss.SendMsg j { payload := m } = none)
    (hfuel : ms.length < fuel)
    (hrecv' : ∀ j m, ms'[j]? = some m → ss.RecvMsg j = Except.ok m)
    (herr' : ss.RecvMsg ms'.length = Except.error e')
    (hsend' : ∀ j m, ms'[j]? = some m → cs.SendMsg j { payload := m } = none)
    (hfuel' : ms'.length < fuel') :
    forwardClientToServer cs ss fuel =
      { ops := if ms = [] then [] else StreamOp.SendHeader h :: relayed ms
        signal := some e } ∧
    forwardServerToClient ss cs fuel' = { ops := relayed ms', signal := some e' } := by
  constructor
  · unfold forwardClientToServer
    cases fuel with
    | zero => simp at hfuel
    | succ fuel =>
      cases ms with
      | nil =>
        simp only [List.length_nil] at herr
        simp [forwardClientToServerLoop, herr]
      | cons m rest =>
        have h0 := hrecv 0 m (by simp)
        have s0 := hsend 0 m (by simp)
        obtain ⟨hh, hsh⟩ := hheader (by simp)
        simp only [forwardClientToServerLoop, h0, if_true, hh, hsh, s0]
        rw [forwardClientToServerLoop_relays cs ss e rest 1 (by decide) _ _ fuel
          (fun j m' hj => by
            have := hrecv (j + 1) m' (by simpa using hj)
            rwa [show j + 1 = 1 + j by omega] at this)
          (by
            rw [show 1 + rest.length = (m :: rest).length by simp; omega]
            exact herr)
          (fun j m' hj => by
            have := hsend (j + 1) m' (by simpa using hj)
            rwa [show j + 1 = 1 + j by omega] at this)
          (by simpa using hfuel)]
        simp [relayed]
  · unfold forwardServerToClient
    rw [forwardServerToClientLoop_relays ss cs e' ms' 0 _ _ fuel'
      (fun j m hj => by simpa using hrecv' j m hj)
      (by simpa using herr')
      (fun j m hj => by simpa using hsend' j m hj) hfuel']
    simp

/-- The inputs of C8 are met by two streams: two frames from the backend, one
from the caller. -/
theorem forward_relays_frames_witness :
    forwardClientToServer sampleClientStream sampleServerStream 3 =
      { ops := [StreamOp.SendHeader [("h", ["v"])], StreamOp.SendMsg { payload := [1, 2] },
          StreamOp.SendMsg { payload := [3] }]
        signal := some GoError.EOF } ∧
    forwardServerToClient sampleServerStream sampleClientStream 2 =
      { ops := [StreamOp.SendMsg { payload := [7] }], signal := some GoError.EOF } :=
  forward_relays_frames sampleClientStream sampleServerStream [[1, 2], [3]] [[7]]
    GoError.EOF GoError.EOF [("h", ["v"])] 3 2
    (fun j m hj => by
      match j, hj with
      | 0, hj => cases hj; rfl
      | 1, hj => cases hj; rfl
      | _ + 2, hj => simp at hj)
    rfl (fun _ => ⟨rfl, rfl⟩) (fun _ _ _ => rfl) (by decide)
    (fun j m hj => by
      match j, hj with
      | 0, hj => cases hj; rfl
      | _ + 1, hj => simp at hj)
    rfl (fun _ _ _ => rfl) (by decide)

end GrpcProxy
